import Mathlib

/-!
Verification of the lunar-companion repository core: the phase calculator
(src/services/moonService.ts, function getMoonData) and the phase
silhouette generator (src/components/MoonVisual.tsx, component MoonVisual).

Timestamps are embedded as real numbers of milliseconds since the Unix
epoch; a JavaScript Date value is represented by the pair of its
getTime() value `t` and its getTimezoneOffset() value `tz` (minutes).
JavaScript floating-point numbers are embedded as real numbers.
-/

/-- The eight named moon phases of the MoonPhaseName enum in src/types.ts.
The Chinese display strings carried by the TypeScript enum are irrelevant
to the logic and are dropped. -/
inductive MoonPhaseName where
  | NEW_MOON
  | WAXING_CRESCENT
  | FIRST_QUARTER
  | WAXING_GIBBOUS
  | FULL_MOON
  | WANING_GIBBOUS
  | LAST_QUARTER
  | WANING_CRESCENT
deriving DecidableEq

/-- The MoonData record of src/types.ts. The fields rise, set and transit
are declared `Date | null` in the source, hence Option here (a timestamp
in milliseconds when present). -/
structure MoonData where
  phase : ℝ
  age : ℝ
  fraction : ℝ
  name : MoonPhaseName
  rise : Option ℝ
  mset : Option ℝ
  transit : Option ℝ
  distance : ℝ

/-- Constant SYNODIC_MONTH of moonService.ts (days). -/
def SYNODIC_MONTH : ℝ := 29.53058867

/-- Function toJulian of moonService.ts:
date.getTime() / 86400000 - date.getTimezoneOffset() / 1440 + 2440587.5. -/
noncomputable def toJulian (t tz : ℝ) : ℝ :=
  t / 86400000 - tz / 1440 + 2440587.5

/-- The dayStart computation inside getMoonData:
`const dayStart = new Date(date); dayStart.setHours(0,0,0,0);`
setHours(0,0,0,0) removes the milliseconds elapsed since local midnight,
where local time is t - tz * 60000 and a day is 86400000 ms; the
milliseconds-into-day is the floor-based remainder of the local time. -/
noncomputable def dayStartMs (t tz : ℝ) : ℝ :=
  t - 86400000 * Int.fract ((t - tz * 60000) / 86400000)

/-- The illuminated-fraction computation of getMoonData (moonService.ts):
`const angle = phase * 2 * Math.PI; const fraction = 0.5 * (1 - Math.cos(angle));`
factored out as a function of phase. -/
noncomputable def illumFraction (phase : ℝ) : ℝ :=
  0.5 * (1 - Real.cos (phase * 2 * Real.pi))

/-- The name-selection if/else chain of getMoonData (moonService.ts),
factored out as a function of age. The chain starts from the default
NEW_MOON and tests the eight literal band boundaries in order. -/
noncomputable def phaseNameOfAge (age : ℝ) : MoonPhaseName :=
  if age < 1.84566 then MoonPhaseName.NEW_MOON
  else if age < 5.53699 then MoonPhaseName.WAXING_CRESCENT
  else if age < 9.22831 then MoonPhaseName.FIRST_QUARTER
  else if age < 12.91963 then MoonPhaseName.WAXING_GIBBOUS
  else if age < 16.61096 then MoonPhaseName.FULL_MOON
  else if age < 20.30228 then MoonPhaseName.WANING_GIBBOUS
  else if age < 23.99361 then MoonPhaseName.LAST_QUARTER
  else if age < 27.68493 then MoonPhaseName.WANING_CRESCENT
  else MoonPhaseName.NEW_MOON

/-- Function normalizeDate of moonService.ts: despite its name and the
comment about adjusting times that are off by more than 24 h, its body is
`return d;` -- the identity on its first argument. -/
def normalizeDate (d _base : ℝ) : ℝ := d

/-- Function getMoonData of moonService.ts. A Date argument is embedded
as the pair (t, tz); lat and lng are the two remaining parameters of the
source function. The let bindings mirror the source line by line (the
orbital elements L, M, F and the longitude are computed and never used,
exactly as in the source). -/
noncomputable def getMoonData (t tz lat lng : ℝ) : MoonData :=
  let jd := toJulian t tz
  let D := jd - 2451545.0
  let L := 218.316 + 13.176396 * D
  let M := 134.963 + 13.064993 * D
  let F := 93.272 + 13.229350 * D
  let l := 6.289 * Real.sin (M * Real.pi / 180)
  let longitude := L + l
  let knownNewMoonJD := 2460321.998
  let daysSinceNew := jd - knownNewMoonJD
  let cycles := daysSinceNew / SYNODIC_MONTH
  let currentCyclePhase := cycles - (⌊cycles⌋ : ℝ)
  let age := currentCyclePhase * SYNODIC_MONTH
  let phase := currentCyclePhase
  let fraction := illumFraction phase
  let name := phaseNameOfAge age
  let dayStart := dayStartMs t tz
  let riseOffsetHours := 6 + age * 0.8
  let setOffsetHours := 18 + age * 0.8
  let rise := dayStart + riseOffsetHours * 3600000
  let mset := dayStart + setOffsetHours * 3600000
  let transit := (rise + mset) / 2
  { phase := phase
    age := age
    fraction := fraction
    name := name
    rise := some (normalizeDate rise dayStart)
    mset := some (normalizeDate mset dayStart)
    transit := some (normalizeDate transit dayStart)
    distance := 384400 }

/-- The cycle-count expression feeding the floor-based modulo in
getMoonData. -/
noncomputable def moonCycles (t tz : ℝ) : ℝ :=
  (toJulian t tz - 2460321.998) / SYNODIC_MONTH

lemma getMoonData_phase (t tz lat lng : ℝ) :
    (getMoonData t tz lat lng).phase = Int.fract (moonCycles t tz) := rfl

lemma getMoonData_age (t tz lat lng : ℝ) :
    (getMoonData t tz lat lng).age =
      Int.fract (moonCycles t tz) * SYNODIC_MONTH := rfl

/-- Claim C4: for every finite timestamp (any real t and timezone offset
tz, before or after the reference new-moon epoch) the phase returned by
getMoonData lies in [0, 1) -- the cycle count is reduced by the
floor-based modulo `cycles - Math.floor(cycles)` -- and consequently
age = phase * 29.53058867 lies in [0, 29.53058867). -/
theorem moonService_phase_age_range (t tz lat lng : ℝ) :
    0 ≤ (getMoonData t tz lat lng).phase ∧
    (getMoonData t tz lat lng).phase < 1 ∧
    (getMoonData t tz lat lng).age =
      (getMoonData t tz lat lng).phase * 29.53058867 ∧
    0 ≤ (getMoonData t tz lat lng).age ∧
    (getMoonData t tz lat lng).age < 29.53058867 := by
  have h0 : (0 : ℝ) ≤ Int.fract (moonCycles t tz) := Int.fract_nonneg _
  have h1 : Int.fract (moonCycles t tz) < 1 := Int.fract_lt_one _
  refine ⟨?_, ?_, rfl, ?_, ?_⟩
  · rw [getMoonData_phase]; exact h0
  · rw [getMoonData_phase]; exact h1
  · rw [getMoonData_age]
    have : (0 : ℝ) < SYNODIC_MONTH := by norm_num [SYNODIC_MONTH]
    positivity
  · rw [getMoonData_age]
    have hS : SYNODIC_MONTH = (29.53058867 : ℝ) := rfl
    nlinarith [h0, h1]

/-- Claim C5: the fraction field of getMoonData equals
0.5 * (1 - cos(phase * 2π)) for the returned phase, and the formula takes
the four cardinal values: phase 0 gives 0, 0.25 gives 0.5, 0.5 gives 1,
0.75 gives 0.5. -/
theorem moonService_fraction_formula :
    (∀ t tz lat lng : ℝ,
      (getMoonData t tz lat lng).fraction =
        0.5 * (1 - Real.cos ((getMoonData t tz lat lng).phase * (2 * Real.pi)))) ∧
    illumFraction 0 = 0 ∧
    illumFraction 0.25 = 0.5 ∧
    illumFraction 0.5 = 1 ∧
    illumFraction 0.75 = 0.5 := by
  refine ⟨fun t tz lat lng => ?_, ?_, ?_, ?_, ?_⟩
  · show illumFraction (getMoonData t tz lat lng).phase = _
    rw [illumFraction]
    ring_nf
  · rw [illumFraction]
    norm_num
  · rw [illumFraction, show (0.25 : ℝ) * 2 * Real.pi = Real.pi / 2 by ring,
      Real.cos_pi_div_two]
    norm_num
  · rw [illumFraction, show (0.5 : ℝ) * 2 * Real.pi = Real.pi by ring,
      Real.cos_pi]
    norm_num
  · rw [illumFraction,
      show (0.75 : ℝ) * 2 * Real.pi = Real.pi + Real.pi / 2 by ring,
      Real.cos_add, Real.cos_pi, Real.sin_pi, Real.cos_pi_div_two,
      Real.sin_pi_div_two]
    norm_num

/-!
Embedding of the silhouette generator in src/components/MoonVisual.tsx.
The component builds an SVG path string `d` for the lit region; the path
is always one of three shapes, captured by the Outline type below:
an empty path, the full-circle path
`M 50 2 A 48 48 0 1 1 50 98 A 48 48 0 1 1 50 2`, or a two-arc path
`M 50 2 A 48 48 0 0 s1 50 98 A rx 48 0 0 s2 50 2` consisting of an outer
circular arc of radius 48 from the top pole (50,2) to the bottom pole
(50,98) with sweep flag s1, followed by an elliptical terminator arc with
horizontal semi-axis rx and vertical semi-axis 48 back to the top pole
with sweep flag s2. Only the flags and rx vary, so the Outline value
records exactly those. -/

/-- The SVG path emitted by MoonVisual: empty, the full disc boundary, or
the two-arc shape described above (outerSweep = s1, rx, innerSweep = s2,
with `true` for sweep flag 1 and `false` for sweep flag 0). -/
inductive Outline where
  | empty : Outline
  | fullCircle : Outline
  | twoArc (outerSweep : Bool) (rx : ℝ) (innerSweep : Bool) : Outline

/-- `const terminatorWidth = r * Math.cos(phase * 2 * Math.PI)` with
r = 48 (MoonVisual.tsx). -/
noncomputable def terminatorWidth (phase : ℝ) : ℝ :=
  48 * Real.cos (phase * 2 * Real.pi)

/-- The four-regime if/else of MoonVisual.tsx that assigns the path `d`
before the edge-case overrides. Each branch is the literal path string of
the source with its two sweep flags and `Math.abs(terminatorWidth)`:
waxing crescent `0 0 1 ... 0 0 0`, waxing gibbous `0 0 1 ... 0 0 1`,
waning gibbous `0 0 0 ... 0 0 1`, waning crescent `0 0 0 ... 0 0 0`. -/
noncomputable def moonOutlineGeneral (phase : ℝ) : Outline :=
  if phase < 0.5 then
    if phase < 0.25 then
      Outline.twoArc true |terminatorWidth phase| false
    else
      Outline.twoArc true |terminatorWidth phase| true
  else
    if phase < 0.75 then
      Outline.twoArc false |terminatorWidth phase| true
    else
      Outline.twoArc false |terminatorWidth phase| false

/-- The full path computation of MoonVisual.tsx: the general four-regime
assignment followed, in source order, by the two edge-case overwrites
`if (phase < 0.01 || phase > 0.99) d = ""` and
`if (Math.abs(phase - 0.5) < 0.01) d = <full circle>`. -/
noncomputable def moonOutline (phase : ℝ) : Outline :=
  let d := moonOutlineGeneral phase
  let d := if phase < 0.01 ∨ 0.99 < phase then Outline.empty else d
  let d := if |phase - 0.5| < 0.01 then Outline.fullCircle else d
  d

/-- A well-formed closed outline: the empty path and the full circle are
always well formed; a two-arc path is well formed when the terminator
semi-axis is a valid SVG radius lying within the disc radius 48, so the
path is a closed curve contained in the disc. -/
def Outline.valid : Outline → Prop
  | Outline.empty => True
  | Outline.fullCircle => True
  | Outline.twoArc _ rx _ => 0 ≤ rx ∧ rx ≤ 48

/-- Area of the plane region enclosed by the outline, from SVG arc
semantics on the paths MoonVisual emits. Sweep flag 1 draws in the
positive-angle direction of the y-down SVG plane (clockwise on screen).
Hence the outer arc from (50,2) to (50,98) passes through the right half
of the circle when s1 = 1 and through the left half when s1 = 0, and the
terminator arc from (50,98) back to (50,2) passes through the left
vertex (50 - rx, 50) of the ellipse when s2 = 1 and through the right
vertex (50 + rx, 50) when s2 = 0. When the half-ellipse lies on the same
side as the outer semicircle (s1 = 1 with s2 = 0, or s1 = 0 with s2 = 1)
the path encloses the lune between them, of area
(pi/2)(48*48) - (pi/2)(rx*48); otherwise it encloses the union of the
semicircle and the opposite half-ellipse, of area
(pi/2)(48*48) + (pi/2)(rx*48). The full-circle path encloses the disc of
area pi*48^2 and the empty path encloses nothing. -/
noncomputable def enclosedArea : Outline → ℝ
  | Outline.empty => 0
  | Outline.fullCircle => Real.pi * 48 ^ 2
  | Outline.twoArc s1 rx s2 =>
      if s1 ≠ s2 then Real.pi * 48 / 2 * (48 - rx)
      else Real.pi * 48 / 2 * (48 + rx)

lemma moonOutline_ite (p : ℝ) :
    moonOutline p =
      if |p - 0.5| < 0.01 then Outline.fullCircle
      else if p < 0.01 ∨ 0.99 < p then Outline.empty
      else moonOutlineGeneral p := rfl

lemma abs_terminatorWidth_nonneg (p : ℝ) : 0 ≤ |terminatorWidth p| :=
  abs_nonneg _

lemma abs_terminatorWidth_le (p : ℝ) : |terminatorWidth p| ≤ 48 := by
  rw [terminatorWidth, abs_mul, abs_of_pos (show (0:ℝ) < 48 by norm_num)]
  nlinarith [Real.abs_cos_le_one (p * 2 * Real.pi)]

lemma moonOutline_newBand (p : ℝ) (h : p < 0.01 ∨ 0.99 < p)
    (h5 : ¬ |p - 0.5| < 0.01) : moonOutline p = Outline.empty := by
  rw [moonOutline_ite, if_neg h5, if_pos h]

lemma moonOutline_fullBand (p : ℝ) (hl : 0.49 < p) (hr : p < 0.51) :
    moonOutline p = Outline.fullCircle := by
  rw [moonOutline_ite, if_pos]
  rw [abs_lt]
  constructor <;> linarith

lemma moonOutline_generalBand (p : ℝ) (h : ¬(p < 0.01 ∨ 0.99 < p))
    (h5 : ¬ |p - 0.5| < 0.01) : moonOutline p = moonOutlineGeneral p := by
  rw [moonOutline_ite, if_neg h5, if_neg h]

lemma enclosedArea_twoArc (s1 : Bool) (rx : ℝ) (s2 : Bool) :
    enclosedArea (Outline.twoArc s1 rx s2) =
      if s1 ≠ s2 then Real.pi * 48 / 2 * (48 - rx)
      else Real.pi * 48 / 2 * (48 + rx) := rfl

lemma abs_terminatorWidth_eq (p : ℝ) :
    |terminatorWidth p| = 48 * |Real.cos (p * 2 * Real.pi)| := by
  rw [terminatorWidth, abs_mul, abs_of_pos (show (0:ℝ) < 48 by norm_num)]

/-- Claim C3: for every phase in [0, 0.01) or (0.99, 1) the generator
returns the empty outline, and for every phase in (0.49, 0.51) it returns
the full disc boundary; in each of those bands the general four-regime
formula would have produced a different (two-arc) path, so the result
comes from the explicit epsilon-banded overrides. -/
theorem moonVisual_singular_bands :
    (∀ p : ℝ, 0 ≤ p → p < 0.01 →
      moonOutline p = Outline.empty ∧ moonOutlineGeneral p ≠ Outline.empty) ∧
    (∀ p : ℝ, 0.99 < p → p < 1 →
      moonOutline p = Outline.empty ∧ moonOutlineGeneral p ≠ Outline.empty) ∧
    (∀ p : ℝ, 0.49 < p → p < 0.51 →
      moonOutline p = Outline.fullCircle ∧
        moonOutlineGeneral p ≠ Outline.fullCircle) := by
  refine ⟨fun p h0 h1 => ⟨?_, ?_⟩, fun p h0 h1 => ⟨?_, ?_⟩,
    fun p h0 h1 => ⟨?_, ?_⟩⟩
  · exact moonOutline_newBand p (Or.inl h1)
      (by rw [abs_lt]; push_neg; intro hcon; linarith)
  · unfold moonOutlineGeneral
    rw [if_pos (by linarith), if_pos (by linarith)]
    simp
  · exact moonOutline_newBand p (Or.inr h0)
      (by rw [abs_lt]; push_neg; intro hcon; linarith)
  · unfold moonOutlineGeneral
    rw [if_neg (by push_neg; linarith), if_neg (by push_neg; linarith)]
    simp
  · exact moonOutline_fullBand p h0 h1
  · unfold moonOutlineGeneral
    by_cases hp : p < 0.5
    · rw [if_pos hp, if_neg (by push_neg; linarith)]
      simp
    · rw [if_neg hp, if_pos (by push_neg at hp; linarith)]
      simp

/-- Witness for C3 at the concrete phases 0.005, 0.995 and 0.5. -/
theorem moonVisual_singular_bands_witness :
    (moonOutline 0.005 = Outline.empty ∧
      moonOutlineGeneral 0.005 ≠ Outline.empty) ∧
    (moonOutline 0.995 = Outline.empty ∧
      moonOutlineGeneral 0.995 ≠ Outline.empty) ∧
    (moonOutline 0.5 = Outline.fullCircle ∧
      moonOutlineGeneral 0.5 ≠ Outline.fullCircle) :=
  ⟨moonVisual_singular_bands.1 0.005 (by norm_num) (by norm_num),
   moonVisual_singular_bands.2.1 0.995 (by norm_num) (by norm_num),
   moonVisual_singular_bands.2.2 0.5 (by norm_num) (by norm_num)⟩

/-- Claim C1 (counterexample): the generator does NOT normalize its phase
argument. For p = 0.125 and k = 1 the outline at p + k is empty (the
out-of-range value 1.125 trips the `phase > 0.99` new-moon override),
while the outline at the floor-normalized value p mod 1 = 0.125 is a
crescent two-arc path; the two differ. -/
theorem moonVisual_no_normalization_cex :
    moonOutline (0.125 + 1) ≠ moonOutline (Int.fract (0.125 : ℝ)) := by
  have hf : Int.fract (0.125 : ℝ) = 0.125 :=
    Int.fract_eq_self.mpr (by norm_num)
  have h1 : moonOutline ((0.125 : ℝ) + 1) = Outline.empty :=
    moonOutline_newBand _ (Or.inr (by norm_num))
      (by rw [abs_lt]; push_neg; intro hcon; norm_num)
  have h2 : moonOutline (0.125 : ℝ) =
      Outline.twoArc true |terminatorWidth 0.125| false := by
    rw [moonOutline_generalBand _ (by norm_num)
      (by rw [abs_lt]; push_neg; intro hcon; exact absurd hcon (by norm_num))]
    unfold moonOutlineGeneral
    rw [if_pos (by norm_num), if_pos (by norm_num)]
  rw [hf, h1, h2]
  simp

/-- Claim C1 (amended): for every real phase value the generator produces
a well-formed closed outline -- empty, the full disc, or a two-arc path
whose terminator semi-axis lies in [0, 48] -- but it does not first
normalize the phase, so outlines at p + k and at p mod 1 can differ. -/
theorem moonVisual_outline_valid (p : ℝ) : (moonOutline p).valid := by
  rw [moonOutline_ite]
  split_ifs with h1 h2
  · trivial
  · trivial
  · unfold moonOutlineGeneral
    split_ifs <;>
      exact ⟨abs_terminatorWidth_nonneg p, abs_terminatorWidth_le p⟩

lemma sqrt_two_gt_one : (1 : ℝ) < Real.sqrt 2 := by
  nlinarith [Real.sq_sqrt (show (0:ℝ) ≤ 2 by norm_num), Real.sqrt_nonneg 2]

lemma sqrt_two_lt_two : Real.sqrt 2 < 2 := by
  nlinarith [Real.sq_sqrt (show (0:ℝ) ≤ 2 by norm_num), Real.sqrt_nonneg 2]

lemma cos_of_eighth : Real.cos (0.125 * 2 * Real.pi) = Real.sqrt 2 / 2 := by
  rw [show (0.125 : ℝ) * 2 * Real.pi = Real.pi / 4 by ring,
    Real.cos_pi_div_four]

lemma cos_of_three_eighths :
    Real.cos (0.375 * 2 * Real.pi) = -(Real.sqrt 2 / 2) := by
  rw [show (0.375 : ℝ) * 2 * Real.pi = Real.pi - Real.pi / 4 by ring,
    Real.cos_pi_sub, Real.cos_pi_div_four]

lemma moonOutline_eighth :
    moonOutline 0.125 =
      Outline.twoArc true (48 * (Real.sqrt 2 / 2)) false := by
  rw [moonOutline_generalBand _ (by norm_num)
    (by rw [abs_lt]; push_neg; intro hcon; exact absurd hcon (by norm_num))]
  unfold moonOutlineGeneral
  rw [if_pos (by norm_num), if_pos (by norm_num), terminatorWidth,
    cos_of_eighth, abs_of_nonneg (by positivity)]

lemma moonOutline_three_eighths :
    moonOutline 0.375 =
      Outline.twoArc true (48 * (Real.sqrt 2 / 2)) true := by
  rw [moonOutline_generalBand _ (by norm_num)
    (by rw [abs_lt]; push_neg; intro hcon; exact absurd hcon (by norm_num))]
  unfold moonOutlineGeneral
  rw [if_pos (by norm_num), if_neg (by push_neg; norm_num), terminatorWidth,
    cos_of_three_eighths]
  have hnp : (48 : ℝ) * -(Real.sqrt 2 / 2) ≤ 0 := by
    nlinarith [Real.sqrt_nonneg 2]
  rw [abs_of_nonpos hnp]
  ring_nf

/-- Claim C2: outside the epsilon bands the outline is chosen purely by
the quarter of [0,1) the phase lies in, always a two-arc path whose
terminator semi-axis is the non-negative value 48 * |cos(phase * 2π)|,
the two sweep flags depending on the quarter alone; at phase 0.125 the
path is the right outer arc (sweep 1) with the terminator bulging right
(inner sweep 0) and encloses strictly less than a half-disc; at phase
0.375 it is the right outer arc with the terminator bulging left (inner
sweep 1) and encloses strictly more than a half-disc but strictly less
than the full disc. -/
theorem moonVisual_regimes :
    (∀ p : ℝ, 0 ≤ p → p < 1 → ¬(p < 0.01 ∨ 0.99 < p) → ¬|p - 0.5| < 0.01 →
      0 ≤ 48 * |Real.cos (p * 2 * Real.pi)| ∧
      (p < 0.25 → moonOutline p =
        Outline.twoArc true (48 * |Real.cos (p * 2 * Real.pi)|) false) ∧
      (0.25 ≤ p → p < 0.5 → moonOutline p =
        Outline.twoArc true (48 * |Real.cos (p * 2 * Real.pi)|) true) ∧
      (0.5 ≤ p → p < 0.75 → moonOutline p =
        Outline.twoArc false (48 * |Real.cos (p * 2 * Real.pi)|) true) ∧
      (0.75 ≤ p → moonOutline p =
        Outline.twoArc false (48 * |Real.cos (p * 2 * Real.pi)|) false)) ∧
    (moonOutline 0.125 = Outline.twoArc true (48 * (Real.sqrt 2 / 2)) false ∧
      enclosedArea (moonOutline 0.125) < Real.pi * 48 ^ 2 / 2) ∧
    (moonOutline 0.375 = Outline.twoArc true (48 * (Real.sqrt 2 / 2)) true ∧
      Real.pi * 48 ^ 2 / 2 < enclosedArea (moonOutline 0.375) ∧
      enclosedArea (moonOutline 0.375) < Real.pi * 48 ^ 2) := by
  have hpisqrt : 0 < Real.pi * Real.sqrt 2 :=
    mul_pos Real.pi_pos (Real.sqrt_pos.mpr (by norm_num))
  refine ⟨fun p h0 h1 hb h5 => ?_, ⟨moonOutline_eighth, ?_⟩,
    ⟨moonOutline_three_eighths, ?_, ?_⟩⟩
  · have hg := moonOutline_generalBand p hb h5
    refine ⟨by positivity, fun hq => ?_, fun hq1 hq2 => ?_,
      fun hq1 hq2 => ?_, fun hq => ?_⟩
    · rw [hg]; unfold moonOutlineGeneral
      rw [if_pos (by linarith), if_pos hq, abs_terminatorWidth_eq]
    · rw [hg]; unfold moonOutlineGeneral
      rw [if_pos hq2, if_neg (by push_neg; exact hq1), abs_terminatorWidth_eq]
    · rw [hg]; unfold moonOutlineGeneral
      rw [if_neg (by push_neg; exact hq1), if_pos hq2, abs_terminatorWidth_eq]
    · rw [hg]; unfold moonOutlineGeneral
      rw [if_neg (by push_neg; linarith), if_neg (by push_neg; exact hq),
        abs_terminatorWidth_eq]
  · rw [moonOutline_eighth, enclosedArea_twoArc, if_pos (by simp)]
    nlinarith [hpisqrt]
  · rw [moonOutline_three_eighths, enclosedArea_twoArc, if_neg (by simp)]
    nlinarith [hpisqrt]
  · rw [moonOutline_three_eighths, enclosedArea_twoArc, if_neg (by simp)]
    nlinarith [mul_pos Real.pi_pos
      (show (0:ℝ) < 2 - Real.sqrt 2 by nlinarith [sqrt_two_lt_two])]

/-- Witness for C2: the general regime part applied at phase 0.6, inside
the waning-gibbous quarter and outside both epsilon bands. -/
theorem moonVisual_regimes_witness :
    moonOutline 0.6 =
      Outline.twoArc false (48 * |Real.cos (0.6 * 2 * Real.pi)|) true :=
  (moonVisual_regimes.1 0.6 (by norm_num) (by norm_num) (by norm_num)
    (by rw [abs_lt]; push_neg; intro hcon; norm_num)).2.2.2.1
    (by norm_num) (by norm_num)

/-- Claim C8 (code bug): the enclosed illuminated area is NOT continuous
around the 0.5 regime boundary. Just below 0.51 (inside the full-moon
epsilon band) the outline is the full disc, of area pi * 48^2, but at
0.51 the waning-gibbous branch emits both arcs on the left -- the inner
sweep flag 1 makes the terminator bulge toward the lit side, although
the source comment says the arc passes via the right side -- so the path
encloses a lune of area at most a half-disc, and the area function has a
jump at 0.51. -/
theorem moonVisual_area_discontinuous :
    enclosedArea (moonOutline 0.505) = Real.pi * 48 ^ 2 ∧
    enclosedArea (moonOutline 0.51) ≤ Real.pi * 48 ^ 2 / 2 ∧
    ¬ ContinuousAt (fun p => enclosedArea (moonOutline p)) 0.51 := by
  have hfull : enclosedArea (moonOutline 0.505) = Real.pi * 48 ^ 2 := by
    rw [moonOutline_fullBand 0.505 (by norm_num) (by norm_num)]
    rfl
  have h51 : moonOutline 0.51 =
      Outline.twoArc false |terminatorWidth 0.51| true := by
    rw [moonOutline_generalBand _ (by norm_num)
      (by rw [abs_lt]; push_neg; intro hcon; norm_num)]
    unfold moonOutlineGeneral
    rw [if_neg (by push_neg; norm_num), if_pos (by norm_num)]
  have harea : enclosedArea (moonOutline 0.51) ≤ Real.pi * 48 ^ 2 / 2 := by
    rw [h51, enclosedArea_twoArc, if_pos (by simp)]
    nlinarith [abs_terminatorWidth_nonneg 0.51, Real.pi_pos]
  refine ⟨hfull, harea, fun hc => ?_⟩
  have h1 : Filter.Tendsto (fun p => enclosedArea (moonOutline p))
      (nhdsWithin 0.51 (Set.Iio 0.51))
      (nhds (enclosedArea (moonOutline 0.51))) :=
    hc.mono_left nhdsWithin_le_nhds
  have h2 : (fun p => enclosedArea (moonOutline p))
      =ᶠ[nhdsWithin 0.51 (Set.Iio 0.51)] fun _ => Real.pi * 48 ^ 2 := by
    filter_upwards [Ioo_mem_nhdsWithin_Iio
      (show (0.51 : ℝ) ∈ Set.Ioc 0.49 0.51 by constructor <;> norm_num)]
      with q hq
    rw [moonOutline_fullBand q hq.1 hq.2]
    rfl
  have h3 : Filter.Tendsto (fun _ : ℝ => Real.pi * 48 ^ 2)
      (nhdsWithin 0.51 (Set.Iio 0.51))
      (nhds (enclosedArea (moonOutline 0.51))) :=
    h1.congr' h2
  have h4 : enclosedArea (moonOutline 0.51) = Real.pi * 48 ^ 2 :=
    tendsto_nhds_unique h3 tendsto_const_nhds
  nlinarith [Real.pi_pos]

/-- Lower bound of band i of the age-to-name classification: the literal
boundaries read off the if/else chain of getMoonData, presented as nine
contiguous half-open intervals (the first and the last both carry
NEW_MOON, as in the source where NEW_MOON is both the first test and the
final else). -/
def bandLo (i : Fin 9) : ℝ :=
  match i.val with
  | 0 => 0
  | 1 => 1.84566
  | 2 => 5.53699
  | 3 => 9.22831
  | 4 => 12.91963
  | 5 => 16.61096
  | 6 => 20.30228
  | 7 => 23.99361
  | _ => 27.68493

/-- Upper bound of band i of the age-to-name classification. -/
def bandHi (i : Fin 9) : ℝ :=
  match i.val with
  | 0 => 1.84566
  | 1 => 5.53699
  | 2 => 9.22831
  | 3 => 12.91963
  | 4 => 16.61096
  | 5 => 20.30228
  | 6 => 23.99361
  | 7 => 27.68493
  | _ => 29.53058867

/-- The phase name attached to band i. -/
def bandName (i : Fin 9) : MoonPhaseName :=
  match i.val with
  | 0 => MoonPhaseName.NEW_MOON
  | 1 => MoonPhaseName.WAXING_CRESCENT
  | 2 => MoonPhaseName.FIRST_QUARTER
  | 3 => MoonPhaseName.WAXING_GIBBOUS
  | 4 => MoonPhaseName.FULL_MOON
  | 5 => MoonPhaseName.WANING_GIBBOUS
  | 6 => MoonPhaseName.LAST_QUARTER
  | 7 => MoonPhaseName.WANING_CRESCENT
  | _ => MoonPhaseName.NEW_MOON

lemma bandHi_le_bandLo {i j : Fin 9} (h : i < j) : bandHi i ≤ bandLo j := by
  fin_cases i <;> fin_cases j <;>
    first
      | exact absurd h (by decide)
      | norm_num [bandLo, bandHi]

lemma band_covers (a : ℝ) (h0 : 0 ≤ a) (h1 : a < 29.53058867) :
    ∃ i : Fin 9, (bandLo i ≤ a ∧ a < bandHi i) ∧
      phaseNameOfAge a = bandName i := by
  by_cases c0 : a < 1.84566
  · refine ⟨0, ⟨h0, c0⟩, ?_⟩
    unfold phaseNameOfAge
    rw [if_pos c0]
    rfl
  by_cases c1 : a < 5.53699
  · refine ⟨1, ⟨by push_neg at c0; exact c0, c1⟩, ?_⟩
    unfold phaseNameOfAge
    rw [if_neg c0, if_pos c1]
    rfl
  by_cases c2 : a < 9.22831
  · refine ⟨2, ⟨by push_neg at c1; exact c1, c2⟩, ?_⟩
    unfold phaseNameOfAge
    rw [if_neg c0, if_neg c1, if_pos c2]
    rfl
  by_cases c3 : a < 12.91963
  · refine ⟨3, ⟨by push_neg at c2; exact c2, c3⟩, ?_⟩
    unfold phaseNameOfAge
    rw [if_neg c0, if_neg c1, if_neg c2, if_pos c3]
    rfl
  by_cases c4 : a < 16.61096
  · refine ⟨4, ⟨by push_neg at c3; exact c3, c4⟩, ?_⟩
    unfold phaseNameOfAge
    rw [if_neg c0, if_neg c1, if_neg c2, if_neg c3, if_pos c4]
    rfl
  by_cases c5 : a < 20.30228
  · refine ⟨5, ⟨by push_neg at c4; exact c4, c5⟩, ?_⟩
    unfold phaseNameOfAge
    rw [if_neg c0, if_neg c1, if_neg c2, if_neg c3, if_neg c4, if_pos c5]
    rfl
  by_cases c6 : a < 23.99361
  · refine ⟨6, ⟨by push_neg at c5; exact c5, c6⟩, ?_⟩
    unfold phaseNameOfAge
    rw [if_neg c0, if_neg c1, if_neg c2, if_neg c3, if_neg c4, if_neg c5,
      if_pos c6]
    rfl
  by_cases c7 : a < 27.68493
  · refine ⟨7, ⟨by push_neg at c6; exact c6, c7⟩, ?_⟩
    unfold phaseNameOfAge
    rw [if_neg c0, if_neg c1, if_neg c2, if_neg c3, if_neg c4, if_neg c5,
      if_neg c6, if_pos c7]
    rfl
  · refine ⟨8, ⟨by push_neg at c7; exact c7, h1⟩, ?_⟩
    unfold phaseNameOfAge
    rw [if_neg c0, if_neg c1, if_neg c2, if_neg c3, if_neg c4, if_neg c5,
      if_neg c6, if_neg c7]
    rfl

/-- Claim C6: the age-to-name mapping is total on [0, 29.53058867) and
defined by the eight literal band boundaries: every age in the domain
lies in exactly one of the nine contiguous half-open bands and is mapped
to that band's name (first and last band both NEW_MOON); in particular
age 10 lies in [9.22831, 12.91963) and yields WAXING_GIBBOUS. -/
theorem moonService_phase_bands :
    (∀ a : ℝ, 0 ≤ a → a < 29.53058867 →
      ∃! i : Fin 9, (bandLo i ≤ a ∧ a < bandHi i) ∧
        phaseNameOfAge a = bandName i) ∧
    phaseNameOfAge 10 = MoonPhaseName.WAXING_GIBBOUS := by
  constructor
  · intro a h0 h1
    obtain ⟨i, hi, hn⟩ := band_covers a h0 h1
    refine ⟨i, ⟨hi, hn⟩, ?_⟩
    rintro j ⟨hj, -⟩
    by_contra hne
    rcases lt_or_gt_of_ne hne with h | h
    · have hd := bandHi_le_bandLo h
      linarith [hj.2, hi.1]
    · have hd := bandHi_le_bandLo h
      linarith [hi.2, hj.1]
  · unfold phaseNameOfAge
    rw [if_neg (by norm_num), if_neg (by norm_num), if_neg (by norm_num),
      if_pos (by norm_num)]

/-- Witness for C6 at the concrete age of 10 days. -/
theorem moonService_phase_bands_witness :
    ∃! i : Fin 9, (bandLo i ≤ 10 ∧ (10 : ℝ) < bandHi i) ∧
      phaseNameOfAge 10 = bandName i :=
  moonService_phase_bands.1 10 (by norm_num) (by norm_num)

/-- Claim C7: for every input the rise field is the local day start plus
(6 + age * 0.8) hours, the set field is the day start plus
(18 + age * 0.8) hours, and the transit field is exactly the midpoint of
those two times (one hour being 3600000 ms). -/
theorem moonService_rise_set_transit (t tz lat lng : ℝ) :
    (getMoonData t tz lat lng).rise =
      some (dayStartMs t tz +
        (6 + (getMoonData t tz lat lng).age * 0.8) * 3600000) ∧
    (getMoonData t tz lat lng).mset =
      some (dayStartMs t tz +
        (18 + (getMoonData t tz lat lng).age * 0.8) * 3600000) ∧
    (getMoonData t tz lat lng).transit =
      some ((dayStartMs t tz +
          (6 + (getMoonData t tz lat lng).age * 0.8) * 3600000 +
        (dayStartMs t tz +
          (18 + (getMoonData t tz lat lng).age * 0.8) * 3600000)) / 2) :=
  ⟨rfl, rfl, rfl⟩

/-- Claim C9: getMoonData never reads its latitude and longitude
arguments, so for one timestamp any two coordinate pairs give equal
MoonData records, and every real input produces a result (the function
is total). -/
theorem moonService_ignores_location (t tz lat1 lng1 lat2 lng2 : ℝ) :
    getMoonData t tz lat1 lng1 = getMoonData t tz lat2 lng2 := rfl

/-- Claim C10: although MoonData declares rise, set and transit as
nullable, getMoonData always returns concrete times (never none), the
set time is exactly 12 hours after the rise time, and normalizeDate is
the identity on its first argument. -/
theorem moonService_times_never_null :
    (∀ t tz lat lng : ℝ, ∃ r s c : ℝ,
      (getMoonData t tz lat lng).rise = some r ∧
      (getMoonData t tz lat lng).mset = some s ∧
      (getMoonData t tz lat lng).transit = some c ∧
      s = r + 12 * 3600000) ∧
    ∀ d b : ℝ, normalizeDate d b = d :=
  ⟨fun t tz lat lng => ⟨_, _, _, rfl, rfl, rfl, by simp only [normalizeDate]; ring⟩,
    fun d b => rfl⟩
